import Mathlib

/-!
Verification of the IoT dashboard backend (Express + MQTT + WebSocket bridge).

Shallow embedding of the source:
- JS strings are modelled as lists of character codes (`Str := List Nat`).
- JS `Map` objects are modelled as insertion-ordered association lists.
- JS `Set` objects are modelled as duplicate-free lists with set-style
  add/delete operations.
- Platform builtins (JSON.parse, Date.now, crypto randomness) are passed in
  as explicit parameters, since they are external to the repository's code.
-/

/-- A JS string: its sequence of character codes. -/
abbrev Str : Type := List Nat

/-- Character codes of a Lean string literal (used to write JS string
literals from the source). -/
def codes (s : String) : Str := s.toList.map Char.toNat

/-- JS `Map.prototype.get` over an insertion-ordered association list. -/
def mapGet {α : Type} : List (Str × α) → Str → Option α
  | [], _ => none
  | (k', v) :: rest, k => if k' = k then some v else mapGet rest k

/-- JS `Map.prototype.set`: replace in place if the key is present
(keeping insertion order), otherwise append. -/
def mapSet {α : Type} : List (Str × α) → Str → α → List (Str × α)
  | [], k, v => [(k, v)]
  | (k', v') :: rest, k, v =>
      if k' = k then (k, v) :: rest else (k', v') :: mapSet rest k v

/-- JS `Map.prototype.delete`: remove the entry with the given key. -/
def mapDel {α : Type} (m : List (Str × α)) (k : Str) : List (Str × α) :=
  m.filter (fun p => decide (p.1 ≠ k))

theorem mapGet_set_self {α : Type} (m : List (Str × α)) (k : Str) (v : α) :
    mapGet (mapSet m k v) k = some v := by
  induction m with
  | nil => simp [mapSet, mapGet]
  | cons p rest ih =>
      obtain ⟨k', v'⟩ := p
      by_cases h : k' = k
      · simp [mapSet, mapGet, h]
      · simp [mapSet, mapGet, h, ih]

theorem mapGet_set_other {α : Type} (m : List (Str × α)) (k k' : Str) (v : α)
    (h : k' ≠ k) : mapGet (mapSet m k v) k' = mapGet m k' := by
  have h' : k ≠ k' := Ne.symm h
  induction m with
  | nil => simp [mapSet, mapGet, h']
  | cons p rest ih =>
      obtain ⟨k0, v0⟩ := p
      by_cases hk : k0 = k
      · subst hk
        simp [mapSet, mapGet, h']
      · simp [mapSet, mapGet, hk, ih]

theorem mapGet_del_self {α : Type} (m : List (Str × α)) (k : Str) :
    mapGet (mapDel m k) k = none := by
  induction m with
  | nil => simp [mapDel, mapGet]
  | cons p rest ih =>
      obtain ⟨k0, v0⟩ := p
      by_cases h : k0 = k
      · simpa [mapDel, h] using ih
      · simpa [mapDel, mapGet, h] using ih

/-- JS `Set.prototype.add` on a list-backed set. -/
def setAdd (s : List Str) (t : Str) : List Str :=
  if t ∈ s then s else s ++ [t]

/-- JS `Set.prototype.delete` on a list-backed set. -/
def setDel (s : List Str) (t : Str) : List Str :=
  s.filter (fun x => decide (x ≠ t))

/-! ## Upstream Message Client (`BackendMQTTService`, src/unnamed/part_001)

The MQTT client parses each inbound payload as JSON, falling back to the
raw string, caches the latest record per topic, and emits the record. -/

/-- A parsed JSON value (the result type of the platform `JSON.parse`). -/
inductive JVal where
  | jnull : JVal
  | jbool : Bool → JVal
  | jnum : Int → JVal
  | jstr : Str → JVal
  | jarr : List JVal → JVal
  | jobj : List (Str × JVal) → JVal

/-- The `data` field of a Message Record: either the parsed JSON value or
the raw payload string (when `JSON.parse` throws). -/
inductive MqttData where
  | parsed : JVal → MqttData
  | rawStr : Str → MqttData

/-- A Message Record, as built in the client's `'message'` handler. -/
structure MqttRecord where
  topic : Str
  data : MqttData
  raw : Str
  receivedAt : Str

/-- The `'message'` handler of `BackendMQTTService.connect`:
parse the payload (the platform JSON parser is passed in as `parse`;
`none` models a thrown parse error), build the record, overwrite the
latest-record cache for the topic, and return the emitted record. -/
def handleMqttMessage (parse : Str → Option JVal)
    (cache : List (Str × MqttRecord)) (topic payload nowIso : Str) :
    MqttRecord × List (Str × MqttRecord) :=
  let data : MqttData :=
    match parse payload with
    | some v => MqttData.parsed v
    | none => MqttData.rawStr payload
  let record : MqttRecord :=
    { topic := topic, data := data, raw := payload, receivedAt := nowIso }
  (record, mapSet cache topic record)

/-! ## Fan-out Server (`WSService`, src/src/services/wsService.js) -/

/-- A downstream WebSocket connection: its `readyState` and its
`subscriptions` set. -/
structure WsClient where
  readyState : Nat
  subscriptions : List Str

/-- The delivery test of the MQTT→WS bridge in `WSService.init`:
send only to OPEN (readyState 1) clients; if the client declared
subscriptions, require the record's topic to be in them; with no
subscriptions declared, deliver everything. -/
def shouldDeliver (client : WsClient) (record : MqttRecord) : Bool :=
  if client.readyState = 1 then
    if client.subscriptions.length ≠ 0 then
      decide (record.topic ∈ client.subscriptions)
    else true
  else false

/-- The delivery envelope `{type: 'mqtt', ...record}`. -/
structure Envelope where
  etype : Str
  topic : Str
  data : MqttData
  raw : Str
  receivedAt : Str

/-- Wrap a record in the broker-sourced envelope. -/
def mkEnvelope (r : MqttRecord) : Envelope :=
  { etype := codes "mqtt", topic := r.topic, data := r.data,
    raw := r.raw, receivedAt := r.receivedAt }

/-- The fan-out of one MQTT event over the current client list: the
(client, envelope) sends performed by the bridge. -/
def wsFanout (clients : List WsClient) (record : MqttRecord) :
    List (WsClient × Envelope) :=
  (clients.filter (fun c => shouldDeliver c record)).map
    (fun c => (c, mkEnvelope record))

/-- `ws.on('message')` control handler of `WSService.init`. Input is the
outcome of `JSON.parse` plus destructuring of `action`/`topic` (`none`
models a thrown parse error; the fields are `none` when absent).
Output: (new subscription set, messages sent back to this client,
whether the handler closed the connection). The source handler sends
nothing and never closes; malformed input falls into the empty catch. -/
def handleControl (p : Option (Option Str × Option Str))
    (subs : List Str) : List Str × List Str × Bool :=
  match p with
  | none => (subs, [], false)
  | some (action, topicOpt) =>
      match topicOpt with
      | none => (subs, [], false)
      | some t =>
          if t ≠ [] then
            let s1 := if action = some (codes "subscribe") then setAdd subs t else subs
            let s2 := if action = some (codes "unsubscribe") then setDel s1 t else s1
            (s2, [], false)
          else (subs, [], false)

/-- A malformed control message: the payload is not JSON, or it lacks a
truthy `topic`, or its `action` is neither `subscribe` nor `unsubscribe`. -/
def malformedControl (p : Option (Option Str × Option Str)) : Prop :=
  match p with
  | none => True
  | some (action, topicOpt) =>
      (∀ t, topicOpt = some t → t = []) ∨
      (action ≠ some (codes "subscribe") ∧ action ≠ some (codes "unsubscribe"))

/-- C1: For every event and every open downstream connection, the fan-out
delivers the event's envelope to that connection if and only if the
connection's subscription set is empty or contains the event's topic. -/
theorem wsFanout_delivers_iff (clients : List WsClient) (record : MqttRecord)
    (c : WsClient) (hc : c ∈ clients) (hopen : c.readyState = 1) :
    (c, mkEnvelope record) ∈ wsFanout clients record ↔
      (c.subscriptions = [] ∨ record.topic ∈ c.subscriptions) := by
  have hdel : shouldDeliver c record = true ↔
      (c.subscriptions = [] ∨ record.topic ∈ c.subscriptions) := by
    unfold shouldDeliver
    rw [if_pos hopen]
    rcases hsub : c.subscriptions with _ | ⟨t, ts⟩
    · simp
    · simp
  constructor
  · intro hmem
    rcases List.mem_map.mp hmem with ⟨c', hc', heq⟩
    have hcc : c' = c := congrArg Prod.fst heq
    subst hcc
    exact hdel.mp (List.mem_filter.mp hc').2
  · intro h
    exact List.mem_map.mpr ⟨c, List.mem_filter.mpr ⟨hc, hdel.mpr h⟩, rfl⟩

/-- An open connection with no declared subscriptions. -/
def wsClientW : WsClient := { readyState := 1, subscriptions := [] }

/-- A concrete broker event. -/
def recordW : MqttRecord :=
  { topic := codes "a/b", data := MqttData.rawStr (codes "x"),
    raw := codes "x", receivedAt := codes "t" }

/-- Witness for `wsFanout_delivers_iff`: a connection with an empty
subscription set receives an event on an arbitrary topic. -/
theorem wsFanout_delivers_iff_witness :
    (wsClientW, mkEnvelope recordW) ∈ wsFanout [wsClientW] recordW := by
  exact (wsFanout_delivers_iff _ _ _ (List.mem_singleton.mpr rfl) rfl).mpr
    (Or.inl rfl)

/-- C9: Processing a malformed control message leaves the connection's
subscription set unchanged, sends nothing back to the sender, and does
not close the connection. -/
theorem malformed_control_ignored (p : Option (Option Str × Option Str))
    (subs : List Str) (h : malformedControl p) :
    handleControl p subs = (subs, [], false) := by
  rcases p with _ | ⟨action, topicOpt⟩
  · rfl
  · rcases topicOpt with _ | t
    · rfl
    · simp only [malformedControl] at h
      rcases h with h | ⟨h1, h2⟩
      · have ht : t = [] := h t rfl
        subst ht
        simp [handleControl]
      · by_cases ht : t = []
        · subst ht
          simp [handleControl]
        · simp [handleControl, ht, h1, h2]

/-- Witness for `malformed_control_ignored`: a non-JSON payload leaves a
singleton subscription set intact. -/
theorem malformed_control_ignored_witness :
    handleControl none [codes "a/b"] = ([codes "a/b"], [], false) :=
  malformed_control_ignored none [codes "a/b"] trivial

/-- C5: Every inbound broker message produces a Message Record (the handler
is a total function): `raw` is the payload string, `data` is the parsed
JSON value when parsing succeeds and the raw payload string otherwise, and
the latest-record cache for the topic is overwritten with this record. -/
theorem mqtt_message_record_total (parse : Str → Option JVal)
    (cache : List (Str × MqttRecord)) (topic payload nowIso : Str) :
    (handleMqttMessage parse cache topic payload nowIso).1.raw = payload ∧
    (handleMqttMessage parse cache topic payload nowIso).1.topic = topic ∧
    (∀ v, parse payload = some v →
      (handleMqttMessage parse cache topic payload nowIso).1.data = MqttData.parsed v) ∧
    (parse payload = none →
      (handleMqttMessage parse cache topic payload nowIso).1.data = MqttData.rawStr payload) ∧
    mapGet (handleMqttMessage parse cache topic payload nowIso).2 topic =
      some (handleMqttMessage parse cache topic payload nowIso).1 ∧
    (∀ t, t ≠ topic →
      mapGet (handleMqttMessage parse cache topic payload nowIso).2 t = mapGet cache t) := by
  refine ⟨rfl, rfl, ?_, ?_, ?_, ?_⟩
  · intro v hv
    simp [handleMqttMessage, hv]
  · intro hv
    simp [handleMqttMessage, hv]
  · exact mapGet_set_self cache topic _
  · intro t ht
    exact mapGet_set_other cache topic t _ ht

/-- A parser that fails on everything except the empty JSON object text
(a stand-in for the platform JSON parser in the witness). -/
def parseW : Str → Option JVal :=
  fun s => if s = codes "\x7b\x7d" then some (JVal.jobj []) else none

/-- Witness for `mqtt_message_record_total`: the payload `"not json"` yields
a record with `data` and `raw` both equal to the raw string. -/
theorem mqtt_message_record_total_witness :
    (handleMqttMessage parseW [] (codes "a/b") (codes "not json") (codes "t")).1.raw
        = codes "not json" ∧
    (handleMqttMessage parseW [] (codes "a/b") (codes "not json") (codes "t")).1.data
        = MqttData.rawStr (codes "not json") := by
  have h := mqtt_message_record_total parseW [] (codes "a/b") (codes "not json") (codes "t")
  exact ⟨h.1, h.2.2.2.1 rfl⟩

/-! ## Upstream subscription deferral (`BackendMQTTService.subscribe`)

`subscribe` issues the request immediately when connected; otherwise it
registers a `once('connect')` callback that re-runs `subscribe` for the
topic. The `'connect'` handler installed by `connect()` runs first (it was
registered first): it sets `isConnected` and subscribes the configured
topics; then the deferred once-callbacks run in registration order. -/

/-- The connection-relevant state of `BackendMQTTService`:
whether `this.client` exists, `this.isConnected`, the queue of pending
`once('connect')` subscribe callbacks (by topic, in registration order),
the subscribe requests issued to the broker client so far, and the
configured startup topics. -/
structure MqttConnState where
  clientExists : Bool
  isConnected : Bool
  pending : List Str
  issued : List Str
  cfgTopics : List Str

/-- `BackendMQTTService.subscribe(topic)`: ensure the client exists
(`connect()` only creates it; connectivity arrives later as an event),
then either issue the subscribe request or defer it until `'connect'`. -/
def mqttSubscribe (s : MqttConnState) (t : Str) : MqttConnState :=
  let s := if s.clientExists then s else { s with clientExists := true }
  if s.isConnected then { s with issued := s.issued ++ [t] }
  else { s with pending := s.pending ++ [t] }

/-- Run `subscribe` for each topic in order (`forEach` / queued replay). -/
def subscribeAll (s : MqttConnState) (ts : List Str) : MqttConnState :=
  ts.foldl mqttSubscribe s

/-- The `'connect'` event: the handler from `connect()` sets `isConnected`
and subscribes the configured topics; then the pending `once('connect')`
callbacks fire in order (the emitter removes them before firing). -/
def onConnect (s : MqttConnState) : MqttConnState :=
  let s1 := { s with isConnected := true }
  let s2 := subscribeAll s1 s1.cfgTopics
  subscribeAll { s2 with pending := [] } s2.pending

/-- External stimuli for the subscription state machine. -/
inductive MqttEvt where
  | subCall : Str → MqttEvt
  | connected : MqttEvt

/-- One step of the subscription state machine. -/
def mqttStep (s : MqttConnState) : MqttEvt → MqttConnState
  | MqttEvt.subCall t => mqttSubscribe s t
  | MqttEvt.connected => onConnect s

/-- Process a sequence of events. -/
def mqttRun (s : MqttConnState) (es : List MqttEvt) : MqttConnState :=
  es.foldl mqttStep s

theorem mqttSubscribe_connected (s : MqttConnState) (t : Str)
    (h : s.isConnected = true) :
    (mqttSubscribe s t).issued = s.issued ++ [t] ∧
    (mqttSubscribe s t).isConnected = true ∧
    (mqttSubscribe s t).pending = s.pending := by
  unfold mqttSubscribe
  by_cases hc : s.clientExists <;> simp [hc, h]

theorem mqttSubscribe_disconnected (s : MqttConnState) (t : Str)
    (h : s.isConnected = false) :
    (mqttSubscribe s t).isConnected = false ∧
    (mqttSubscribe s t).pending = s.pending ++ [t] := by
  unfold mqttSubscribe
  by_cases hc : s.clientExists <;> simp [hc, h]

theorem subscribeAll_connected (ts : List Str) :
    ∀ s : MqttConnState, s.isConnected = true →
      (subscribeAll s ts).isConnected = true ∧
      (subscribeAll s ts).pending = s.pending ∧
      ∀ x, (x ∈ s.issued ∨ x ∈ ts) → x ∈ (subscribeAll s ts).issued := by
  induction ts with
  | nil =>
      intro s h
      exact ⟨h, rfl, fun x hx => by
        rcases hx with hx | hx
        · exact hx
        · cases hx⟩
  | cons t ts ih =>
      intro s h
      obtain ⟨hi, hconn, hpend⟩ := mqttSubscribe_connected s t h
      have step : subscribeAll s (t :: ts) = subscribeAll (mqttSubscribe s t) ts := rfl
      obtain ⟨c1, c2, c3⟩ := ih (mqttSubscribe s t) hconn
      refine ⟨by rw [step]; exact c1, by rw [step, c2, hpend], ?_⟩
      intro x hx
      rw [step]
      rcases hx with hx | hx
      · exact c3 x (Or.inl (by rw [hi]; exact List.mem_append_left _ hx))
      · rcases List.mem_cons.mp hx with hx | hx
        · exact c3 x (Or.inl (by rw [hi, hx]; exact List.mem_append_right _ (List.mem_singleton.mpr rfl)))
        · exact c3 x (Or.inr hx)

theorem mqttRun_no_connect (es : List MqttEvt) :
    ∀ s : MqttConnState, s.isConnected = false →
      (∀ e ∈ es, e ≠ MqttEvt.connected) →
      (mqttRun s es).isConnected = false ∧
      ∀ x ∈ s.pending, x ∈ (mqttRun s es).pending := by
  induction es with
  | nil => exact fun s h _ => ⟨h, fun x hx => hx⟩
  | cons e es ih =>
      intro s h hes
      have he : e ≠ MqttEvt.connected := hes e (List.mem_cons_self e es)
      rcases e with t | _
      · obtain ⟨h1, h2⟩ := mqttSubscribe_disconnected s t h
        have step : mqttRun s (MqttEvt.subCall t :: es) = mqttRun (mqttSubscribe s t) es := rfl
        obtain ⟨c1, c2⟩ := ih (mqttSubscribe s t) h1
          (fun e' he' => hes e' (List.mem_cons_of_mem _ he'))
        refine ⟨by rw [step]; exact c1, ?_⟩
        intro x hx
        rw [step]
        exact c2 x (by rw [h2]; exact List.mem_append_left _ hx)
      · exact absurd rfl he

/-- C7: A subscribe request made before the client's first transition to
`Connected` is deferred and replayed once connectivity is established: in
any event sequence that starts disconnected, makes the request, sees no
`connect` event for a while, and then connects, the topic is among the
subscribe requests issued to the broker client. -/
theorem subscribe_deferred_replayed (s0 : MqttConnState) (t : Str)
    (es : List MqttEvt) (h0 : s0.isConnected = false)
    (hes : ∀ e ∈ es, e ≠ MqttEvt.connected) :
    t ∈ (mqttRun s0 (MqttEvt.subCall t :: (es ++ [MqttEvt.connected]))).issued := by
  obtain ⟨h1, h2⟩ := mqttSubscribe_disconnected s0 t h0
  have step1 : mqttRun s0 (MqttEvt.subCall t :: (es ++ [MqttEvt.connected])) =
      mqttRun (mqttSubscribe s0 t) (es ++ [MqttEvt.connected]) := rfl
  rw [step1]
  obtain ⟨hconn2, hpend2⟩ := mqttRun_no_connect es (mqttSubscribe s0 t) h1 hes
  have ht2 : t ∈ (mqttRun (mqttSubscribe s0 t) es).pending :=
    hpend2 t (by rw [h2]; exact List.mem_append_right _ (List.mem_singleton.mpr rfl))
  have step2 : mqttRun (mqttSubscribe s0 t) (es ++ [MqttEvt.connected]) =
      onConnect (mqttRun (mqttSubscribe s0 t) es) := by
    unfold mqttRun
    rw [List.foldl_append]
    rfl
  rw [step2]
  set s2 := mqttRun (mqttSubscribe s0 t) es with hs2
  unfold onConnect
  obtain ⟨d1, d2, _⟩ := subscribeAll_connected s2.cfgTopics { s2 with isConnected := true } rfl
  obtain ⟨_, _, e3⟩ := subscribeAll_connected
    (subscribeAll { s2 with isConnected := true } s2.cfgTopics).pending
    { subscribeAll { s2 with isConnected := true } s2.cfgTopics with pending := [] }
    (by simpa using d1)
  exact e3 t (Or.inr (by rw [d2]; exact ht2))

/-- The freshly constructed singleton state of `BackendMQTTService`
(no client yet, disconnected, default configured topic list `#`). -/
def mqttInitW : MqttConnState :=
  { clientExists := false, isConnected := false, pending := [],
    issued := [], cfgTopics := [codes "#"] }

/-- Witness for `subscribe_deferred_replayed`: a topic subscribed before any
connectivity is issued right after the first `connect` event. -/
theorem subscribe_deferred_replayed_witness :
    codes "a/b" ∈
      (mqttRun mqttInitW [MqttEvt.subCall (codes "a/b"), MqttEvt.connected]).issued := by
  have h := subscribe_deferred_replayed mqttInitW (codes "a/b") [] rfl
    (fun e he => absurd he (List.not_mem_nil e))
  simpa using h

/-! ## Topic Identifier Generator (src/src/utils/topicIdGenerator.js)

`generateTopicId` loops up to 1000 attempts building
`Date.now().toString() + secureRandom(10,99)` (after 100 attempts:
the first 11 timestamp characters + `secureRandom(1000,9999)`), exits as
soon as the candidate is not in `usedIds` (or attempts run out), falls
back to a digit-mapped crypto hex string on exhaustion, pads or truncates
to 15 characters, and records the result in `usedIds`. The external
inputs (clock reads and random draws, one per attempt, plus the fallback
hex bytes) are collected in `GenEnv`. -/

/-- Decimal digit characters of a natural number (`Number.toString()`),
with explicit fuel for structural recursion; `fuel = n + 1` suffices. -/
def natDigitsAux : Nat → Nat → List Nat
  | 0, _ => []
  | fuel + 1, n =>
      if n < 10 then [48 + n] else natDigitsAux fuel (n / 10) ++ [48 + n % 10]

/-- Decimal representation of a natural number as character codes. -/
def natDigits (n : Nat) : List Nat := natDigitsAux (n + 1) n

/-- The per-call external inputs of `generateTopicId`: the timestamp string
and the two random draws at each attempt, and the hex string of the
fallback's `crypto.randomBytes(8)`. -/
structure GenEnv where
  ts : Nat → Str
  r2 : Nat → Nat
  r4 : Nat → Nat
  hex : Str

/-- The candidate id built in attempt `k` (1-based): timestamp + 2 random
digits, or — once `attempts > 100` — 11 timestamp characters + 4 random
digits. -/
def candidate (env : GenEnv) (k : Nat) : Str :=
  if 100 < k then (env.ts k).take 11 ++ natDigits (env.r4 k)
  else env.ts k ++ natDigits (env.r2 k)

/-- The do-while loop of `generateTopicId`: repeat while the candidate is
already used and `attempts < 1000`. `k` is the attempt counter after the
increment; fuel 1000 from `k = 1` always reaches the exit condition. -/
def genLoop (env : GenEnv) (used : List Str) : Nat → Nat → Str
  | k, 0 => candidate env k
  | k, fuel + 1 =>
      let c := candidate env k
      if c ∈ used ∧ k < 1000 then genLoop env used (k + 1) fuel else c

/-- The crypto fallback: map hex letters `a`–`f` to the decimal digits of
their value plus one (so `a` becomes `11`, …, `f` becomes `16`), keep
other characters, and take the first 15 characters. -/
def hexFixChar (c : Nat) : List Nat :=
  if 97 ≤ c ∧ c ≤ 102 then [49, 48 + (c - 96)] else [c]

def fallbackId (hex : Str) : Str :=
  ((hex.map hexFixChar).flatten).take 15

/-- The final length adjustment: truncate above 15, left-pad with `0`
below 15. -/
def fixLen (c : Str) : Str :=
  if 15 < c.length then c.take 15
  else if c.length < 15 then List.replicate (15 - c.length) 48 ++ c
  else c

/-- The id returned by one `generateTopicId()` call: run the loop, take
the crypto fallback if the loop result is still used, and fix the length. -/
def genId (env : GenEnv) (used : List Str) : Str :=
  fixLen (if genLoop env used 1 1000 ∈ used then fallbackId env.hex
    else genLoop env used 1 1000)

/-- `usedIds.add(topicId)` (`Set` semantics: no duplicate entries). -/
def genUsedAdd (used : List Str) (id : Str) : List Str :=
  if id ∈ used then used else used ++ [id]

/-- The periodic cleanup: when the set exceeds 10000 entries, keep only
the most recent 5000. -/
def genPrune (used : List Str) : List Str :=
  if 10000 < used.length then used.drop (used.length - 5000) else used

/-- `generateTopicId()`: returns the id and the new `usedIds`. -/
def generateTopicId (env : GenEnv) (used : List Str) : Str × List Str :=
  (genId env used, genPrune (genUsedAdd used (genId env used)))

/-- A run of successive `generateTopicId` calls: the returned ids and the
final `usedIds`. -/
def generateTopicIdRun : List GenEnv → List Str → List Str × List Str
  | [], used => ([], used)
  | e :: es, used =>
      let p := generateTopicId e used
      let q := generateTopicIdRun es p.2
      (p.1 :: q.1, q.2)

theorem natDigitsAux_digits (fuel : Nat) :
    ∀ n c, c ∈ natDigitsAux fuel n → 48 ≤ c ∧ c ≤ 57 := by
  induction fuel with
  | zero => intro n c hc; cases hc
  | succ fuel ih =>
      intro n c hc
      unfold natDigitsAux at hc
      by_cases h : n < 10
      · rw [if_pos h] at hc
        rcases List.mem_singleton.mp hc with rfl
        omega
      · rw [if_neg h] at hc
        rcases List.mem_append.mp hc with hc | hc
        · exact ih _ _ hc
        · rcases List.mem_singleton.mp hc with rfl
          have : n % 10 < 10 := Nat.mod_lt _ (by omega)
          omega

theorem natDigits_digits (n c : Nat) (hc : c ∈ natDigits n) :
    48 ≤ c ∧ c ≤ 57 := natDigitsAux_digits _ _ _ hc

theorem natDigitsAux_len_two (n fuel : Nat) (h1 : 10 ≤ n) (h2 : n ≤ 99)
    (hf : 2 ≤ fuel) : (natDigitsAux fuel n).length = 2 := by
  obtain ⟨g, rfl⟩ : ∃ g, fuel = g + 2 := ⟨fuel - 2, by omega⟩
  have hn : ¬ n < 10 := by omega
  have hq1 : n / 10 < 10 := by omega
  unfold natDigitsAux
  rw [if_neg hn]
  unfold natDigitsAux
  rw [if_pos hq1]
  simp

theorem natDigitsAux_len_four (n fuel : Nat) (h1 : 1000 ≤ n) (h2 : n ≤ 9999)
    (hf : 4 ≤ fuel) : (natDigitsAux fuel n).length = 4 := by
  obtain ⟨g, rfl⟩ : ∃ g, fuel = g + 4 := ⟨fuel - 4, by omega⟩
  have hn : ¬ n < 10 := by omega
  have hq1 : ¬ n / 10 < 10 := by omega
  have hq2 : ¬ n / 10 / 10 < 10 := by omega
  have hq3 : n / 10 / 10 / 10 < 10 := by omega
  unfold natDigitsAux
  rw [if_neg hn]
  unfold natDigitsAux
  rw [if_neg hq1]
  unfold natDigitsAux
  rw [if_neg hq2]
  unfold natDigitsAux
  rw [if_pos hq3]
  simp

theorem natDigits_len_two (n : Nat) (h1 : 10 ≤ n) (h2 : n ≤ 99) :
    (natDigits n).length = 2 :=
  natDigitsAux_len_two n (n + 1) h1 h2 (by omega)

theorem natDigits_len_four (n : Nat) (h1 : 1000 ≤ n) (h2 : n ≤ 9999) :
    (natDigits n).length = 4 :=
  natDigitsAux_len_four n (n + 1) h1 h2 (by omega)

/-- Realistic external inputs: 13-digit timestamps and in-range random
draws (as produced by `Date.now()` and `secureRandom`). -/
def WellFormedEnv (env : GenEnv) : Prop :=
  (∀ k, (env.ts k).length = 13 ∧ ∀ c ∈ env.ts k, 48 ≤ c ∧ c ≤ 57) ∧
  (∀ k, 10 ≤ env.r2 k ∧ env.r2 k ≤ 99) ∧
  (∀ k, 1000 ≤ env.r4 k ∧ env.r4 k ≤ 9999)

theorem candidate_length (env : GenEnv) (hwf : WellFormedEnv env) (k : Nat) :
    (candidate env k).length = 15 := by
  obtain ⟨hts, hr2, hr4⟩ := hwf
  unfold candidate
  by_cases h : 100 < k
  · rw [if_pos h]
    rw [List.length_append, List.length_take, (hts k).1,
      natDigits_len_four _ (hr4 k).1 (hr4 k).2]
    omega
  · rw [if_neg h]
    rw [List.length_append, (hts k).1, natDigits_len_two _ (hr2 k).1 (hr2 k).2]

theorem candidate_digits (env : GenEnv)
    (hts : ∀ k, ∀ c ∈ env.ts k, 48 ≤ c ∧ c ≤ 57) (k : Nat) :
    ∀ c ∈ candidate env k, 48 ≤ c ∧ c ≤ 57 := by
  intro c hc
  unfold candidate at hc
  by_cases h : 100 < k
  · rw [if_pos h] at hc
    rcases List.mem_append.mp hc with hc | hc
    · exact hts k c (List.take_subset _ _ hc)
    · exact natDigits_digits _ _ hc
  · rw [if_neg h] at hc
    rcases List.mem_append.mp hc with hc | hc
    · exact hts k c hc
    · exact natDigits_digits _ _ hc

theorem genLoop_eq_candidate (env : GenEnv) (used : List Str) :
    ∀ fuel k, ∃ j, genLoop env used k fuel = candidate env j := by
  intro fuel
  induction fuel with
  | zero => exact fun k => ⟨k, rfl⟩
  | succ fuel ih =>
      intro k
      unfold genLoop
      by_cases h : candidate env k ∈ used ∧ k < 1000
      · rw [if_pos h]
        exact ih (k + 1)
      · exact ⟨k, by rw [if_neg h]⟩

theorem fixLen_length (c : Str) : (fixLen c).length = 15 := by
  unfold fixLen
  by_cases h1 : 15 < c.length
  · rw [if_pos h1]
    simp [List.length_take]
    omega
  · rw [if_neg h1]
    by_cases h2 : c.length < 15
    · rw [if_pos h2]
      simp
      omega
    · rw [if_neg h2]
      omega

theorem fixLen_eq_self (c : Str) (h : c.length = 15) : fixLen c = c := by
  unfold fixLen
  rw [if_neg (by omega), if_neg (by omega)]

theorem fixLen_digits (c : Str) (h : ∀ x ∈ c, 48 ≤ x ∧ x ≤ 57) :
    ∀ x ∈ fixLen c, 48 ≤ x ∧ x ≤ 57 := by
  intro x hx
  unfold fixLen at hx
  by_cases h1 : 15 < c.length
  · rw [if_pos h1] at hx
    exact h x (List.take_subset _ _ hx)
  · rw [if_neg h1] at hx
    by_cases h2 : c.length < 15
    · rw [if_pos h2] at hx
      rcases List.mem_append.mp hx with hx | hx
      · rcases List.eq_of_mem_replicate hx with rfl
        omega
      · exact h x hx
    · rw [if_neg h2] at hx
      exact h x hx

theorem fallbackId_digits (hex : Str)
    (hhex : ∀ c ∈ hex, (48 ≤ c ∧ c ≤ 57) ∨ (97 ≤ c ∧ c ≤ 102)) :
    ∀ x ∈ fallbackId hex, 48 ≤ x ∧ x ≤ 57 := by
  intro x hx
  unfold fallbackId at hx
  have hx' := List.take_subset _ _ hx
  rcases List.mem_flatten.mp hx' with ⟨l, hl, hxl⟩
  rcases List.mem_map.mp hl with ⟨c0, hc0, rfl⟩
  unfold hexFixChar at hxl
  by_cases h : 97 ≤ c0 ∧ c0 ≤ 102
  · rw [if_pos h] at hxl
    simp only [List.mem_cons, List.mem_singleton, List.not_mem_nil, or_false] at hxl
    rcases hxl with rfl | rfl <;> omega
  · rw [if_neg h] at hxl
    rcases List.mem_singleton.mp hxl with rfl
    rcases hhex x hc0 with hd | hd
    · exact hd
    · exact absurd hd h

/-- C8: Every call to `generateTopicId` — on every path, including the
high-attempt candidates and the crypto fallback — returns a string of
exactly 15 characters, all decimal digits. -/
theorem generateTopicId_shape (env : GenEnv) (used : List Str)
    (hts : ∀ k, ∀ c ∈ env.ts k, 48 ≤ c ∧ c ≤ 57)
    (hhex : ∀ c ∈ env.hex, (48 ≤ c ∧ c ≤ 57) ∨ (97 ≤ c ∧ c ≤ 102)) :
    (generateTopicId env used).1.length = 15 ∧
    ∀ x ∈ (generateTopicId env used).1, 48 ≤ x ∧ x ≤ 57 := by
  have hid : (generateTopicId env used).1 =
      fixLen (if genLoop env used 1 1000 ∈ used then fallbackId env.hex
        else genLoop env used 1 1000) := rfl
  rw [hid]
  refine ⟨fixLen_length _, fixLen_digits _ ?_⟩
  by_cases h : genLoop env used 1 1000 ∈ used
  · rw [if_pos h]
    exact fallbackId_digits env.hex hhex
  · rw [if_neg h]
    obtain ⟨j, hj⟩ := genLoop_eq_candidate env used 1000 1
    rw [hj]
    exact candidate_digits env hts j

/-- Concrete well-formed inputs for the generator. -/
def envW8 : GenEnv :=
  { ts := fun _ => codes "1760000001142", r2 := fun _ => 42,
    r4 := fun _ => 4242, hex := codes "a0b1c2d3e4f50617" }

theorem tsW_wf : (codes "1760000001142").length = 13 ∧
    ∀ c ∈ codes "1760000001142", 48 ≤ c ∧ c ≤ 57 := by decide

/-- Witness for `generateTopicId_shape`: a call on realistic inputs
returns a 15-character id. -/
theorem generateTopicId_shape_witness :
    (generateTopicId envW8 []).1.length = 15 :=
  (generateTopicId_shape envW8 [] (fun _ => tsW_wf.2) (by decide)).1

/-- A run in which every call's retry loop exits with a candidate that is
not yet in `usedIds` (equivalently, no call reaches the crypto fallback). -/
def freshRun : List GenEnv → List Str → Prop
  | [], _ => True
  | e :: es, used =>
      genLoop e used 1 1000 ∉ used ∧ freshRun es (generateTopicId e used).2

def freshRunDec : (envs : List GenEnv) → (used : List Str) →
    Decidable (freshRun envs used)
  | [], _ => Decidable.isTrue trivial
  | e :: es, used =>
      have : Decidable (freshRun es (generateTopicId e used).2) := freshRunDec es _
      inferInstanceAs (Decidable (genLoop e used 1 1000 ∉ used ∧
        freshRun es (generateTopicId e used).2))

instance (envs : List GenEnv) (used : List Str) : Decidable (freshRun envs used) :=
  freshRunDec envs used

theorem generateTopicId_fresh_step (e : GenEnv) (used : List Str)
    (hwf : WellFormedEnv e) (hfr : genLoop e used 1 1000 ∉ used)
    (hsz : used.length + 1 ≤ 10000) :
    (generateTopicId e used).1 = genLoop e used 1 1000 ∧
    (generateTopicId e used).2 = used ++ [genLoop e used 1 1000] := by
  have hlen : (genLoop e used 1 1000).length = 15 := by
    obtain ⟨j, hj⟩ := genLoop_eq_candidate e used 1000 1
    rw [hj]
    exact candidate_length e hwf j
  have h1 : genId e used = genLoop e used 1 1000 := by
    unfold genId
    rw [if_neg hfr, fixLen_eq_self _ hlen]
  have h2 : genUsedAdd used (genId e used) = used ++ [genLoop e used 1 1000] := by
    unfold genUsedAdd
    rw [h1, if_neg hfr]
  have h3 : genPrune (used ++ [genLoop e used 1 1000]) =
      used ++ [genLoop e used 1 1000] := by
    unfold genPrune
    rw [if_neg (by simp; omega)]
  exact ⟨h1, by show genPrune (genUsedAdd used (genId e used)) = _; rw [h2, h3]⟩

theorem generateTopicIdRun_fresh_aux (envs : List GenEnv) :
    ∀ used : List Str, (∀ e ∈ envs, WellFormedEnv e) → freshRun envs used →
      used.length + envs.length ≤ 10000 →
      ((generateTopicIdRun envs used).1.Nodup ∧
        ∀ x ∈ used, x ∉ (generateTopicIdRun envs used).1) := by
  induction envs with
  | nil =>
      intro used _ _ _
      exact ⟨List.nodup_nil, fun x _ => List.not_mem_nil x⟩
  | cons e es ih =>
      intro used hwf hfresh hsz
      obtain ⟨hfr, hfresh'⟩ := hfresh
      have hwe : WellFormedEnv e := hwf e (List.mem_cons_self e es)
      obtain ⟨h1, h2⟩ := generateTopicId_fresh_step e used hwe hfr
        (by simp at hsz; omega)
      have hrun : generateTopicIdRun (e :: es) used =
          ((generateTopicId e used).1 :: (generateTopicIdRun es (generateTopicId e used).2).1,
            (generateTopicIdRun es (generateTopicId e used).2).2) := rfl
      rw [h2] at hfresh'
      have hsz' : (used ++ [genLoop e used 1 1000]).length + es.length ≤ 10000 := by
        simp only [List.length_append, List.length_singleton]
        simp only [List.length_cons] at hsz
        omega
      obtain ⟨hnd, hnotin⟩ := ih (used ++ [genLoop e used 1 1000])
        (fun e' he' => hwf e' (List.mem_cons_of_mem _ he')) hfresh' hsz'
      rw [hrun, h1, h2]
      constructor
      · exact List.nodup_cons.mpr
          ⟨hnotin _ (List.mem_append_right _ (List.mem_singleton.mpr rfl)), hnd⟩
      · intro x hx
        rw [List.mem_cons]
        rintro (rfl | hmem)
        · exact hfr hx
        · exact hnotin x (List.mem_append_left _ hx) hmem

/-- C2 (amended): in a run of at most 10000 calls in which every call's
retry loop finds a candidate that is not yet in the de-duplication set
(so no call degrades to the crypto fallback), all returned ids are
pairwise distinct. -/
theorem generateTopicId_distinct_of_fresh (envs : List GenEnv)
    (hwf : ∀ e ∈ envs, WellFormedEnv e) (hfresh : freshRun envs [])
    (hN : envs.length ≤ 10000) :
    ((generateTopicIdRun envs []).1).Nodup :=
  (generateTopicIdRun_fresh_aux envs [] hwf hfresh (by simpa using hN)).1

/-- Inputs whose second random draw differs from the first call's. -/
def envW2b : GenEnv :=
  { ts := fun _ => codes "1760000001142", r2 := fun _ => 57,
    r4 := fun _ => 4242, hex := codes "a0b1c2d3e4f50617" }

/-- Witness for `generateTopicId_distinct_of_fresh`: two fresh calls
return two distinct ids. -/
theorem generateTopicId_distinct_of_fresh_witness :
    ((generateTopicIdRun [envW8, envW2b] []).1).Nodup := by
  refine generateTopicId_distinct_of_fresh [envW8, envW2b] ?_ (by decide) (by decide)
  intro e he
  rcases List.mem_cons.mp he with rfl | he
  · exact ⟨fun _ => tsW_wf, fun _ => (by decide : 10 ≤ 42 ∧ 42 ≤ 99),
      fun _ => (by decide : 1000 ≤ 4242 ∧ 4242 ≤ 9999)⟩
  · rcases List.mem_singleton.mp he with rfl
    exact ⟨fun _ => tsW_wf, fun _ => (by decide : 10 ≤ 57 ∧ 57 ≤ 99),
      fun _ => (by decide : 1000 ≤ 4242 ∧ 4242 ≤ 9999)⟩

/-- Adversarial but shape-realistic inputs: the timestamp stays on one
millisecond, the random draws repeat the first call's suffix, and the
fallback's hex bytes spell the already-issued id. -/
def eCex : GenEnv :=
  { ts := fun _ => codes "1760000001142", r2 := fun _ => 42,
    r4 := fun _ => 4242, hex := codes "1760000001142421" }

set_option maxRecDepth 40000 in
/-- C2 (counterexample): two consecutive `generateTopicId` calls can
return the same id — the second call exhausts its 1000 attempts and the
crypto fallback reproduces the first call's id without rechecking, so the
returned values of a 2-call run are not pairwise distinct. -/
theorem generateTopicId_distinct_cex :
    ¬ ((generateTopicIdRun [eCex, eCex] []).1).Nodup := by decide

/-! ## In-Memory Store (src/src/config/database.js) and dashboard routes
(src/unnamed/part_002)

The store is five independent maps. Dashboard routes operate on
`dashboards` and `sharedDashboards`; auth routes on `resetTokens`.
Request bodies are modelled after their Joi schemas (optional keys as
`Option`); `layout`/`stats` objects are carried verbatim as opaque
serialized blobs, which is all the routes do with them. -/

/-- An arbitrary JSON object carried verbatim by the routes. -/
abbrev JsonBlob : Type := List Nat

/-- A widget as accepted by `saveDashboardSchema`. -/
structure Widget where
  wid : Str
  wtype : Str
  title : Option Str
  x : Int
  y : Int
  w : Int
  h : Int
  wdata : Option JsonBlob
  config : Option JsonBlob
deriving DecidableEq

/-- A stored dashboard record. -/
structure Dashboard where
  id : Str
  name : Str
  widgets : List Widget
  layout : Option JsonBlob
  deviceCount : Option Int
  stats : Option JsonBlob
  userId : Str
  createdAt : Str
  updatedAt : Str
  isPublished : Bool
  publishedAt : Option Str
  shareableLink : Option Str
  sharePassword : Option Str
  shareableId : Option Str
deriving DecidableEq

/-- A request body validated by `saveDashboardSchema`. -/
structure SaveBody where
  id : Option Str
  name : Str
  widgets : List Widget
  layout : Option JsonBlob
  deviceCount : Option Int
  stats : Option JsonBlob
deriving DecidableEq

/-- A request body validated by `publishDashboardSchema`. -/
structure PublishBody where
  id : Str
  name : Str
  widgets : List Widget
  layout : Option JsonBlob
  layouts : Option JsonBlob
  deviceCount : Option Int
  stats : Option JsonBlob
  isPublished : Option Bool
  shareableLink : Option Str
  sharePassword : Option Str
  shareableId : Option Str
deriving DecidableEq

/-- The `stats` field of a shared snapshot:
`publishedDashboard.stats || {totalWidgets, gridUtilization: 0}`. -/
inductive SharedStats where
  | given : JsonBlob → SharedStats
  | defaulted : Nat → Nat → SharedStats
deriving DecidableEq

/-- A Shared Dashboard snapshot as stored by `POST /publish`. -/
structure SharedDashboard where
  panelId : Str
  widgets : List Widget
  layouts : JsonBlob
  title : Str
  stats : SharedStats
  sharePassword : Str
  publishedAt : Str
  isShared : Bool
  originalDashboardId : Str
deriving DecidableEq

/-- A password-reset token record. -/
structure ResetToken where
  email : Str
  expiry : Nat
  used : Bool
  createdAt : Str
  ip : Str
  usedAt : Option Str
deriving DecidableEq

/-- The in-memory storage of database.js: five independent maps. -/
structure Storage where
  resetTokens : List (Str × ResetToken)
  dashboards : List (Str × Dashboard)
  sharedDashboards : List (Str × SharedDashboard)
  sessions : List (Str × JsonBlob)
  devices : List (Str × JsonBlob)

/-- Route outcomes for the dashboard endpoints. -/
inductive DashErr where
  | notFound
  | unauthorized
deriving DecidableEq

/-- `value.layout || value.layouts || {}` (objects are truthy; only an
absent key falls through). -/
def normLayout (b : PublishBody) : JsonBlob :=
  match b.layout with
  | some l => l
  | none =>
      match b.layouts with
      | some l => l
      | none => codes "\x7b\x7d"

/-- `POST /publish`: look up the dashboard, check ownership, build the
published dashboard (spread of the stored record, then the request body,
then the publish fields) and the shared snapshot, and store both.
`sid`, `pw` and `nowIso` are the generated shareable id, password and
timestamp; `frontendUrl` comes from the environment. -/
def publishDashboard (st : Storage) (b : PublishBody) (userId : Str)
    (sid pw nowIso frontendUrl : Str) : Except DashErr Storage :=
  match mapGet st.dashboards b.id with
  | none => Except.error DashErr.notFound
  | some existing =>
      if existing.userId = userId then
        let pub : Dashboard :=
          { id := b.id
            name := b.name
            widgets := b.widgets
            layout := some (normLayout b)
            deviceCount := match b.deviceCount with
              | some d => some d
              | none => existing.deviceCount
            stats := match b.stats with
              | some x => some x
              | none => existing.stats
            userId := existing.userId
            createdAt := existing.createdAt
            updatedAt := nowIso
            isPublished := true
            publishedAt := some nowIso
            shareableLink := some (frontendUrl ++ codes "/shared/" ++ sid)
            sharePassword := some pw
            shareableId := some sid }
        let shared : SharedDashboard :=
          { panelId := sid
            widgets := pub.widgets
            layouts := normLayout b
            title := if pub.name = [] then codes "Shared Dashboard" else pub.name
            stats := match pub.stats with
              | some x => SharedStats.given x
              | none => SharedStats.defaulted pub.widgets.length 0
            sharePassword := pw
            publishedAt := nowIso
            isShared := true
            originalDashboardId := b.id }
        Except.ok { st with
          dashboards := mapSet st.dashboards b.id pub,
          sharedDashboards := mapSet st.sharedDashboards sid shared }
      else Except.error DashErr.unauthorized

/-- `PUT /update/:id`: look up the dashboard, check ownership, and store
the merge of the stored record with the request body (id pinned, fresh
`updatedAt`). Only the `dashboards` map is written. -/
def updateDashboard (st : Storage) (dashId : Str) (b : SaveBody)
    (userId nowIso : Str) : Except DashErr Storage :=
  match mapGet st.dashboards dashId with
  | none => Except.error DashErr.notFound
  | some existing =>
      if existing.userId = userId then
        let upd : Dashboard :=
          { existing with
            name := b.name
            widgets := b.widgets
            layout := match b.layout with
              | some l => some l
              | none => existing.layout
            deviceCount := match b.deviceCount with
              | some d => some d
              | none => existing.deviceCount
            stats := match b.stats with
              | some x => some x
              | none => existing.stats
            id := dashId
            userId := userId
            updatedAt := nowIso }
        Except.ok { st with dashboards := mapSet st.dashboards dashId upd }
      else Except.error DashErr.unauthorized

/-- `DELETE /:id`: look up the dashboard, check ownership, delete it, and
— only if it is published and carries a truthy `shareableId` — delete the
shared snapshot as well. -/
def deleteDashboard (st : Storage) (dashId userId : Str) :
    Except DashErr Storage :=
  match mapGet st.dashboards dashId with
  | none => Except.error DashErr.notFound
  | some existing =>
      if existing.userId = userId then
        let shared' :=
          match existing.shareableId with
          | some sid =>
              if existing.isPublished = true ∧ sid ≠ [] then
                mapDel st.sharedDashboards sid
              else st.sharedDashboards
          | none => st.sharedDashboards
        Except.ok { st with
          dashboards := mapDel st.dashboards dashId,
          sharedDashboards := shared' }
      else Except.error DashErr.unauthorized

/-- Route outcomes for `GET /shared/:shareableId`. -/
inductive SharedErr where
  | notFound
  | invalidPassword
deriving DecidableEq

/-- `GET /shared/:shareableId`: look up the snapshot; reject only when a
truthy password is supplied that differs from the stored one; otherwise
respond with the full stored snapshot. -/
def getSharedDashboard (st : Storage) (sid : Str) (password : Option Str) :
    Except SharedErr SharedDashboard :=
  match mapGet st.sharedDashboards sid with
  | none => Except.error SharedErr.notFound
  | some sh =>
      match password with
      | some p =>
          if p ≠ [] ∧ p ≠ sh.sharePassword then
            Except.error SharedErr.invalidPassword
          else Except.ok sh
      | none => Except.ok sh

theorem updateDashboard_shared_frame (st : Storage) (dashId : Str)
    (b : SaveBody) (userId nowIso : Str) (st2 : Storage)
    (h : updateDashboard st dashId b userId nowIso = Except.ok st2) :
    st2.sharedDashboards = st.sharedDashboards := by
  unfold updateDashboard at h
  cases hd : mapGet st.dashboards dashId with
  | none => rw [hd] at h; simp at h
  | some existing =>
      simp only [hd] at h
      by_cases hu : existing.userId = userId
      · rw [if_pos hu] at h
        have h' := Except.ok.inj h
        rw [← h']
      · rw [if_neg hu] at h; simp at h

/-- C3: A successful publish stores a Shared Dashboard snapshot under the
generated shareable id whose `widgets` equal the request's `widgets`,
which are also the published dashboard's `widgets` at publish time; and
any subsequent successful update of any dashboard leaves the
shared-dashboard map — hence the snapshot and all its fields —
unchanged. -/
theorem publish_snapshot_immutable (st : Storage) (b : PublishBody)
    (userId sid pw nowIso frontendUrl : Str) (st1 : Storage)
    (h : publishDashboard st b userId sid pw nowIso frontendUrl = Except.ok st1) :
    ∃ snap, mapGet st1.sharedDashboards sid = some snap ∧
      snap.widgets = b.widgets ∧
      (∃ d, mapGet st1.dashboards b.id = some d ∧ d.widgets = snap.widgets) ∧
      ∀ dashId b2 u2 now2 st2,
        updateDashboard st1 dashId b2 u2 now2 = Except.ok st2 →
        st2.sharedDashboards = st1.sharedDashboards := by
  unfold publishDashboard at h
  cases hd : mapGet st.dashboards b.id with
  | none => rw [hd] at h; simp at h
  | some existing =>
      simp only [hd] at h
      by_cases hu : existing.userId = userId
      · rw [if_pos hu] at h
        have h' := Except.ok.inj h
        rw [← h']
        refine ⟨_, mapGet_set_self _ _ _, rfl, ⟨_, mapGet_set_self _ _ _, rfl⟩, ?_⟩
        intro dashId b2 u2 now2 st2 hupd
        exact updateDashboard_shared_frame _ dashId b2 u2 now2 st2 hupd
      · rw [if_neg hu] at h; simp at h

/-- C6: When deleting a dashboard succeeds, a published dashboard's
shared snapshot is removed from the shared-dashboard map (and no entry
remains under its shareable id), while deleting an unpublished dashboard
leaves the shared-dashboard map completely unchanged. -/
theorem delete_removes_shared_iff_published (st : Storage)
    (dashId userId : Str) (d : Dashboard) (st1 : Storage)
    (hd : mapGet st.dashboards dashId = some d)
    (h : deleteDashboard st dashId userId = Except.ok st1) :
    (∀ sid, d.isPublished = true → d.shareableId = some sid → sid ≠ [] →
      st1.sharedDashboards = mapDel st.sharedDashboards sid ∧
      mapGet st1.sharedDashboards sid = none) ∧
    (d.isPublished = false → st1.sharedDashboards = st.sharedDashboards) := by
  unfold deleteDashboard at h
  simp only [hd] at h
  by_cases hu : d.userId = userId
  · rw [if_pos hu] at h
    have h' := Except.ok.inj h
    rw [← h']
    constructor
    · intro sid hpub hsid hne
      simp only [hsid]
      rw [if_pos ⟨hpub, hne⟩]
      exact ⟨rfl, mapGet_del_self _ _⟩
    · intro hunpub
      cases hsid : d.shareableId with
      | none => simp only [hsid]
      | some sid =>
          simp only [hsid]
          rw [if_neg (by rw [hunpub]; simp)]
  · rw [if_neg hu] at h; simp at h

/-- C10: Reading a stored shared dashboard with no password supplied
succeeds and returns the full stored snapshot (the whole record,
`sharePassword` included); the invalid-password rejection can only arise
when a truthy password is supplied that differs from the stored
`sharePassword`. -/
theorem shared_access_password_rule (st : Storage) (sid : Str)
    (sh : SharedDashboard) (h : mapGet st.sharedDashboards sid = some sh) :
    getSharedDashboard st sid none = Except.ok sh ∧
    ∀ pw, getSharedDashboard st sid pw = Except.error SharedErr.invalidPassword →
      ∃ p, pw = some p ∧ p ≠ [] ∧ p ≠ sh.sharePassword := by
  constructor
  · unfold getSharedDashboard
    simp only [h]
  · intro pw hpw
    unfold getSharedDashboard at hpw
    cases pw with
    | none => simp [h] at hpw
    | some p =>
        by_cases hc : p ≠ [] ∧ p ≠ sh.sharePassword
        · exact ⟨p, rfl, hc.1, hc.2⟩
        · simp [h, hc] at hpw

/-! ## Password reset (src/unnamed/part_003, `POST /reset-password`) -/

/-- Route outcomes of the reset operation. -/
inductive ResetResult where
  | success
  | invalidToken
  | expired
  | alreadyUsed
  | emailMismatch
  | validationError
deriving DecidableEq

/-- `String.prototype.toLowerCase` on a character code (ASCII range). -/
def toLowerCode (c : Nat) : Nat :=
  if 65 ≤ c ∧ c ≤ 90 then c + 32 else c

def toLowerStr (s : Str) : Str := s.map toLowerCode

/-- `POST /reset-password`: after schema validation (the 6-character
password minimum is the part of the Joi schema this model checks; the
email-format check is orthogonal to the token lifecycle), look the token
up, reject expired (deleting it), already-used, and mismatched-email
attempts in that order, and otherwise mark the token used. `now` is the
clock reading compared against the stored expiry. -/
def resetPassword (st : Storage) (token email newPassword : Str)
    (now : Nat) (nowIso : Str) : ResetResult × Storage :=
  if newPassword.length < 6 then (ResetResult.validationError, st)
  else
    match mapGet st.resetTokens token with
    | none => (ResetResult.invalidToken, st)
    | some td =>
        if td.expiry < now then
          (ResetResult.expired, { st with resetTokens := mapDel st.resetTokens token })
        else if td.used then (ResetResult.alreadyUsed, st)
        else if td.email ≠ toLowerStr email then (ResetResult.emailMismatch, st)
        else (ResetResult.success,
          { st with resetTokens := mapSet st.resetTokens token ({ td with used := true, usedAt := some nowIso }) })

/-- C4: For a stored, unexpired, unused reset token with matching email,
the first well-formed reset attempt succeeds and marks the token used;
every subsequent well-formed attempt with the same token — still before
expiry — is rejected as already used and leaves the store unchanged. -/
theorem resetToken_single_use (st : Storage) (token email pwd : Str)
    (now : Nat) (iso : Str) (td : ResetToken)
    (hget : mapGet st.resetTokens token = some td)
    (hused : td.used = false)
    (hemail : td.email = toLowerStr email)
    (hexp : ¬ td.expiry < now)
    (hpwd : ¬ pwd.length < 6) :
    (resetPassword st token email pwd now iso).1 = ResetResult.success ∧
    mapGet (resetPassword st token email pwd now iso).2.resetTokens token =
      some ({ td with used := true, usedAt := some iso }) ∧
    ∀ e2 p2 n2 i2, ¬ p2.length < 6 → ¬ td.expiry < n2 →
      resetPassword (resetPassword st token email pwd now iso).2 token e2 p2 n2 i2 =
        (ResetResult.alreadyUsed, (resetPassword st token email pwd now iso).2) := by
  have hrun : resetPassword st token email pwd now iso =
      (ResetResult.success,
        { st with resetTokens := mapSet st.resetTokens token ({ td with used := true, usedAt := some iso }) }) := by
    unfold resetPassword
    rw [if_neg hpwd]
    simp only [hget]
    rw [if_neg hexp]
    simp [hused, hemail]
  refine ⟨by rw [hrun], by rw [hrun]; exact mapGet_set_self _ _ _, ?_⟩
  intro e2 p2 n2 i2 hp2 hn2
  rw [hrun]
  unfold resetPassword
  rw [if_neg hp2]
  simp [mapGet_set_self, hn2]

/-! Concrete store contents for the route witnesses. -/

def dashW : Dashboard :=
  { id := codes "111111111111111", name := codes "My Dash", widgets := [],
    layout := none, deviceCount := none, stats := none,
    userId := codes "anonymous", createdAt := codes "c0", updatedAt := codes "c0",
    isPublished := false, publishedAt := none, shareableLink := none,
    sharePassword := none, shareableId := none }

def stW3 : Storage :=
  { resetTokens := [], dashboards := [(codes "111111111111111", dashW)],
    sharedDashboards := [], sessions := [], devices := [] }

def pubBodyW : PublishBody :=
  { id := codes "111111111111111", name := codes "My Dash", widgets := [],
    layout := none, layouts := none, deviceCount := none, stats := none,
    isPublished := none, shareableLink := none, sharePassword := none,
    shareableId := none }

def pubDashW : Dashboard :=
  { id := codes "111111111111111", name := codes "My Dash", widgets := [],
    layout := some (codes "\x7b\x7d"), deviceCount := none, stats := none,
    userId := codes "anonymous", createdAt := codes "c0", updatedAt := codes "t1",
    isPublished := true, publishedAt := some (codes "t1"),
    shareableLink := some (codes "http://localhost:3000" ++ codes "/shared/" ++ codes "shared-1"),
    sharePassword := some (codes "PW"), shareableId := some (codes "shared-1") }

def sharedW : SharedDashboard :=
  { panelId := codes "shared-1", widgets := [], layouts := codes "\x7b\x7d",
    title := codes "My Dash", stats := SharedStats.defaulted 0 0,
    sharePassword := codes "PW", publishedAt := codes "t1", isShared := true,
    originalDashboardId := codes "111111111111111" }

def st1W : Storage :=
  { resetTokens := [], dashboards := [(codes "111111111111111", pubDashW)],
    sharedDashboards := [(codes "shared-1", sharedW)], sessions := [], devices := [] }

/-- Witness for `publish_snapshot_immutable`: publishing a concrete
dashboard stores the expected snapshot. -/
theorem publish_snapshot_immutable_witness :
    ∃ snap, mapGet st1W.sharedDashboards (codes "shared-1") = some snap ∧
      snap.widgets = pubBodyW.widgets ∧
      (∃ d, mapGet st1W.dashboards pubBodyW.id = some d ∧ d.widgets = snap.widgets) ∧
      ∀ dashId b2 u2 now2 st2,
        updateDashboard st1W dashId b2 u2 now2 = Except.ok st2 →
        st2.sharedDashboards = st1W.sharedDashboards :=
  publish_snapshot_immutable stW3 pubBodyW (codes "anonymous") (codes "shared-1")
    (codes "PW") (codes "t1") (codes "http://localhost:3000") st1W rfl

def dashW6 : Dashboard :=
  { dashW with
    isPublished := true
    publishedAt := some (codes "t1")
    shareableLink := some (codes "L")
    sharePassword := some (codes "PW")
    shareableId := some (codes "shared-1") }

def stW6 : Storage :=
  { resetTokens := [], dashboards := [(codes "111111111111111", dashW6)],
    sharedDashboards := [(codes "shared-1", sharedW)], sessions := [], devices := [] }

def st1W6 : Storage :=
  { resetTokens := [], dashboards := [], sharedDashboards := [],
    sessions := [], devices := [] }

/-- Witness for `delete_removes_shared_iff_published`: deleting a concrete
published dashboard removes its snapshot. -/
theorem delete_removes_shared_iff_published_witness :
    st1W6.sharedDashboards = mapDel stW6.sharedDashboards (codes "shared-1") ∧
    mapGet st1W6.sharedDashboards (codes "shared-1") = none :=
  (delete_removes_shared_iff_published stW6 (codes "111111111111111")
    (codes "anonymous") dashW6 st1W6 rfl rfl).1 (codes "shared-1") rfl rfl (by decide)

/-- Witness for `shared_access_password_rule`: reading a concrete snapshot
with no password returns the full record. -/
theorem shared_access_password_rule_witness :
    getSharedDashboard stW6 (codes "shared-1") none = Except.ok sharedW :=
  (shared_access_password_rule stW6 (codes "shared-1") sharedW rfl).1

def tdW : ResetToken :=
  { email := codes "user@x.com", expiry := 1000, used := false,
    createdAt := codes "c0", ip := codes "127.0.0.1", usedAt := none }

def stW4 : Storage :=
  { resetTokens := [(codes "tok1", tdW)], dashboards := [],
    sharedDashboards := [], sessions := [], devices := [] }

/-- Witness for `resetToken_single_use`: a concrete token is consumed by
the first attempt and a second attempt is rejected as already used. -/
theorem resetToken_single_use_witness :
    (resetPassword stW4 (codes "tok1") (codes "user@x.com") (codes "secret1") 500 (codes "t2")).1
        = ResetResult.success ∧
    mapGet (resetPassword stW4 (codes "tok1") (codes "user@x.com") (codes "secret1") 500
        (codes "t2")).2.resetTokens (codes "tok1")
        = some ({ tdW with used := true, usedAt := some (codes "t2") }) ∧
    resetPassword (resetPassword stW4 (codes "tok1") (codes "user@x.com") (codes "secret1") 500
          (codes "t2")).2 (codes "tok1") (codes "user@x.com") (codes "secret1") 600 (codes "t3")
        = (ResetResult.alreadyUsed,
          (resetPassword stW4 (codes "tok1") (codes "user@x.com") (codes "secret1") 500 (codes "t2")).2) := by
  have h := resetToken_single_use stW4 (codes "tok1") (codes "user@x.com") (codes "secret1")
    500 (codes "t2") tdW rfl rfl rfl (by decide) (by decide)
  exact ⟨h.1, h.2.1, h.2.2 (codes "user@x.com") (codes "secret1") 600 (codes "t3")
    (by decide) (by decide)⟩
